import Mathlib

/-!
Shallow embedding of the early-boot memory-management core of the kernel
in src/main.rs: the boot-info frame allocator, heap initialization, the
bootstrap sequencing of kernel_main, and the fatal double-fault path.

Physical and virtual addresses are modelled as natural numbers; the u64
values involved never wrap in the code paths embedded here (ranges only
ever iterate up to their end bound, and alignment rounds down).
-/

set_option maxRecDepth 1500

/-- Memory region classification, after bootloader_api's MemoryRegionKind:
everything other than Usable is treated as reserved by the allocator. -/
inductive MemoryRegionKind where
  | Usable
  | Bootloader
  | UnknownUefi (code : Nat)
  | UnknownBios (code : Nat)
deriving DecidableEq

/-- A firmware-reported memory region: half-open byte range [startAddr, endAddr)
with a kind tag (bootloader_api MemoryRegion). -/
structure MemoryRegion where
  startAddr : Nat
  endAddr : Nat
  kind : MemoryRegionKind
deriving DecidableEq

/-- The Rust range r.range.start_addr()..r.range.end_addr() as a list of
byte addresses (empty when endAddr ≤ startAddr, like the Rust Range). -/
def regionAddrs (r : MemoryRegion) : List Nat :=
  List.range' r.startAddr (r.endAddr - r.startAddr)

/-- The flattened address stream of usable_frames before step_by:
filter(kind == Usable).flat_map(start_addr..end_addr). -/
def usableFlatAddrs (memory_map : List MemoryRegion) : List Nat :=
  (memory_map.filter fun r => r.kind == MemoryRegionKind.Usable).flatMap regionAddrs

/-- Iterator::step_by(n): the elements at indices 0, n, 2n, … of a list,
of which there are ⌈length/n⌉. Rust requires n > 0; stepBy is only ever
used with n = 4096. -/
def stepBy (n : Nat) (l : List Nat) : List Nat :=
  (List.range ((l.length + n - 1) / n)).map fun i => l.getD (i * n) 0

/-- PhysFrame::containing_address: a frame is modelled by its 4096-aligned
start address, obtained by rounding the address down. -/
def containing_address (addr : Nat) : Nat := addr / 4096 * 4096

/-- BootInfoFrameAllocator::usable_frames as the finite list the lazy
iterator ranges over: filter usable regions, flatten their byte-address
ranges, step by 4096 over the flattened stream, and round each resulting
address down to its containing frame. -/
def usable_frames (memory_map : List MemoryRegion) : List Nat :=
  (stepBy 4096 (usableFlatAddrs memory_map)).map containing_address

/-- The frame allocator: the boot memory map plus the cursor `next`. -/
structure BootInfoFrameAllocator where
  memory_map : List MemoryRegion
  next : Nat
deriving DecidableEq

/-- BootInfoFrameAllocator::init. -/
def BootInfoFrameAllocator.init (memory_map : List MemoryRegion) : BootInfoFrameAllocator :=
  { memory_map := memory_map, next := 0 }

/-- allocate_frame: returns usable_frames().nth(self.next) and increments
the cursor (also when the sequence is exhausted and None is returned). -/
def BootInfoFrameAllocator.allocate_frame (self : BootInfoFrameAllocator) :
    Option Nat × BootInfoFrameAllocator :=
  ((usable_frames self.memory_map)[self.next]?,
   { self with next := self.next + 1 })

/-- The results of n successive allocate_frame calls starting from state a. -/
def allocCalls (a : BootInfoFrameAllocator) : Nat → List (Option Nat)
  | 0 => []
  | n + 1 =>
    let (r, a') := a.allocate_frame
    r :: allocCalls a' n

/-! ### Page-table manager and heap initialization

The page-table manager is the x86_64 crate's OffsetPageTable; its code is
not part of this repository's sources. It is modelled from the spec
(section 4.2): map(page, frame, flags) walks the translation hierarchy
top-down, allocates each missing intermediate-level table as a fresh frame
from the frame allocator, fails when such a frame cannot be obtained, and
otherwise installs the page-to-frame translation. The error type follows
the crate's public MapToError enum, which init_heap in src/main.rs uses
directly: its FrameAllocationFailed variant is both what map_to reports
when an intermediate table frame cannot be allocated and what init_heap
substitutes for an exhausted allocator (line 95). -/

/-- MapToError enum of the x86_64 crate, for 4 KiB pages. -/
inductive MapToError where
  | FrameAllocationFailed
  | ParentEntryHugePage
  | PageAlreadyMapped (frame : Nat)
deriving DecidableEq

/-- PageTableFlags, restricted to the two flags the kernel sets. -/
structure PageTableFlags where
  present : Bool
  writable : Bool
deriving DecidableEq

/-- Modelled from the spec: the intermediate translation-table levels a
4 KiB page needs, identified by (level, index); a page's L1/L2/L3 tables
cover 512, 512 * 512 and 512 * 512 * 512 consecutive pages respectively. -/
def tableIds (page : Nat) : List (Nat × Nat) :=
  [(3, page / (512 * 512 * 512)), (2, page / (512 * 512)), (1, page / 512)]

/-- Modelled from the spec: the Page Table Manager's state, namely the set
of intermediate tables that exist plus the installed page-to-frame
translations. -/
structure OffsetPageTable where
  tables : List (Nat × Nat)
  translations : List (Nat × Nat)
deriving DecidableEq

/-- Modelled from the spec: walking the hierarchy top-down, allocate a
fresh frame for every needed table not yet present; fail with
FrameAllocationFailed when the allocator is exhausted. Mutations made
before a failure (allocator cursor, created tables) are kept. -/
def createMissingTables :
    List (Nat × Nat) → List (Nat × Nat) → BootInfoFrameAllocator →
    Except MapToError (List (Nat × Nat)) × BootInfoFrameAllocator
  | [], tables, a => (.ok tables, a)
  | t :: rest, tables, a =>
    if t ∈ tables then createMissingTables rest tables a
    else
      match a.allocate_frame with
      | (none, a') => (.error .FrameAllocationFailed, a')
      | (some _, a') => createMissingTables rest (t :: tables) a'

/-- Modelled from the spec: Mapper::map_to. Creates missing intermediate
tables (allocating from the frame allocator), rejects an already-mapped
page with PageAlreadyMapped, and otherwise installs the translation. -/
def map_to (pt : OffsetPageTable) (page frame : Nat) (_flags : PageTableFlags)
    (a : BootInfoFrameAllocator) :
    Except MapToError OffsetPageTable × BootInfoFrameAllocator :=
  match createMissingTables (tableIds page) pt.tables a with
  | (.error e, a') => (.error e, a')
  | (.ok tables', a') =>
    match pt.translations.lookup page with
    | some f => (.error (.PageAlreadyMapped f), a')
    | none => (.ok ⟨tables', (page, frame) :: pt.translations⟩, a')

/-- Outcome of init_heap: the returned Result, the final page-table and
allocator states, the number of loop iterations that performed a
frame-allocation-and-map attempt, and the pages mapped, in order. -/
structure HeapInitOutcome where
  result : Except MapToError Unit
  pt : OffsetPageTable
  alloc : BootInfoFrameAllocator
  attempts : Nat
  mappedPages : List Nat

/-- The for-loop of init_heap: for each page, allocate a frame (an
exhausted allocator becomes MapToError::FrameAllocationFailed via ok_or
and aborts the loop), then map_to the page present+writable, aborting on
a mapping error; state mutated before a failure is kept. -/
def init_heap_loop :
    List Nat → OffsetPageTable → BootInfoFrameAllocator → HeapInitOutcome
  | [], pt, a => ⟨.ok (), pt, a, 0, []⟩
  | page :: rest, pt, a =>
    match a.allocate_frame with
    | (none, a') => ⟨.error .FrameAllocationFailed, pt, a', 1, []⟩
    | (some frame, a') =>
      match map_to pt page frame ⟨true, true⟩ a' with
      | (.error e, a'') => ⟨.error e, pt, a'', 1, []⟩
      | (.ok pt', a'') =>
        let s := init_heap_loop rest pt' a''
        ⟨s.result, s.pt, s.alloc, s.attempts + 1, page :: s.mappedPages⟩

/-- Page::containing_address for virtual addresses, as a page number. -/
def page_containing (addr : Nat) : Nat := addr / 4096

/-- The inclusive page range of init_heap: the pages containing the bytes
heap_start to heap_start + heap_size - 1, as page numbers. -/
def heap_page_range (heap_start heap_size : Nat) : List Nat :=
  List.range' (page_containing heap_start)
    (page_containing (heap_start + heap_size - 1) + 1 - page_containing heap_start)

/-- init_heap from src/main.rs, with the heap start and size as
parameters (the kernel instantiates them with HEAP_START and HEAP_SIZE):
compute the inclusive page range, then run the allocate-and-map loop. -/
def init_heap (heap_start heap_size : Nat) (pt : OffsetPageTable)
    (a : BootInfoFrameAllocator) : HeapInitOutcome :=
  init_heap_loop (heap_page_range heap_start heap_size) pt a

/-- HEAP_START constant from src/main.rs. -/
def HEAP_START : Nat := 0x444444440000

/-- HEAP_SIZE constant from src/main.rs: 100 KiB. -/
def HEAP_SIZE : Nat := 100 * 1024

/-! ### Bootstrap sequencing (kernel_main) -/

/-- Observable bootstrap steps of kernel_main, in program order. -/
inductive BootEvent where
  | loggerInit
  | idtLoad
  | memoryInit
  | frameAllocInit
  | heapMap (page : Nat)
  | heapAllocInit
  | heapTest
  | kernelReady
  | kernelPanic
deriving DecidableEq

/-- The sequence of bootstrap events of kernel_main: logger, IDT load,
page-table manager from the firmware offset, frame allocator from the
memory map, then init_heap (one heapMap event per successfully mapped
page); on success the heap allocator is activated, the heap test runs and
the kernel reports ready, on failure expect panics. -/
def kernel_main_trace (memory_regions : List MemoryRegion)
    (pt0 : OffsetPageTable) : List BootEvent :=
  let s := init_heap HEAP_START HEAP_SIZE pt0
    (BootInfoFrameAllocator.init memory_regions)
  [.loggerInit, .idtLoad, .memoryInit, .frameAllocInit]
    ++ s.mappedPages.map BootEvent.heapMap
    ++ match s.result with
       | .ok _ => [.heapAllocInit, .heapTest, .kernelReady]
       | .error _ => [.kernelPanic]

/-! ### Double fault and the fatal-halt path -/

/-- The saved CPU state handed to an exception handler. -/
structure InterruptStackFrame where
  instruction_pointer : Nat
  code_segment : Nat
  cpu_flags : Nat
  stack_pointer : Nat
  stack_segment : Nat
deriving DecidableEq

/-- The panic messages this kernel can construct. -/
inductive PanicMsg where
  | doubleFault (stack_frame : InterruptStackFrame)
  | allocError
deriving DecidableEq

/-- Diagnostic lines emitted through the logging sink. -/
inductive LogLine where
  | kernelPanicLine (msg : PanicMsg)
  | breakpointLine (stack_frame : InterruptStackFrame)
deriving DecidableEq

/-- Terminal kernel control state: the hlt loop. -/
inductive HaltState where
  | halt
deriving DecidableEq

/-- The value of a computation that never returns: the diagnostics it
emitted and the terminal state it entered. -/
structure Diverged where
  logs : List LogLine
  final : HaltState
deriving DecidableEq

/-- The panic handler from src/main.rs: log one KERNEL PANIC line carrying
the panic message, then loop on hlt forever. -/
def panicHandler (msg : PanicMsg) : Diverged :=
  ⟨[.kernelPanicLine msg], .halt⟩

/-- double_fault_handler: panics with the double-fault message built from
the stack frame; the error code is ignored. -/
def double_fault_handler (stack_frame : InterruptStackFrame)
    (_error_code : Nat) : Diverged :=
  panicHandler (.doubleFault stack_frame)

/-- One iteration of the fatal hlt loop: execute hlt, emit nothing,
remain halted. -/
def hltLoopStep : HaltState → HaltState × List LogLine
  | .halt => (.halt, [])

/-- n iterations of the fatal hlt loop, collecting emitted diagnostics. -/
def hltLoopIter : Nat → HaltState → HaltState × List LogLine
  | 0, s => (s, [])
  | n + 1, s =>
    let (s', out) := hltLoopStep s
    let (s'', out') := hltLoopIter n s'
    (s'', out ++ out')

/-! ## Characterization lemmas -/

theorem stepBy_length (n : Nat) (l : List Nat) :
    (stepBy n l).length = (l.length + n - 1) / n := by
  simp [stepBy]

theorem stepBy_index_lt {n L i : Nat} (hn : 0 < n)
    (h : i < (L + n - 1) / n) : i * n < L := by
  have h2 : (i + 1) * n ≤ L + n - 1 := (Nat.le_div_iff_mul_le hn).mp h
  rw [Nat.add_mul, Nat.one_mul] at h2
  omega

theorem stepBy_getElem (n : Nat) (l : List Nat) (i : Nat)
    (h : i < (stepBy n l).length) :
    (stepBy n l)[i] = l.getD (i * n) 0 := by
  simp [stepBy]

theorem usable_frames_length (memory_map : List MemoryRegion) :
    (usable_frames memory_map).length =
      ((usableFlatAddrs memory_map).length + 4095) / 4096 := by
  simp [usable_frames, stepBy_length]

theorem usable_frames_getElem (memory_map : List MemoryRegion) (i : Nat)
    (h : i < (usable_frames memory_map).length) :
    (usable_frames memory_map)[i] =
      containing_address ((usableFlatAddrs memory_map).getD (i * 4096) 0) := by
  simp only [usable_frames] at h ⊢
  rw [List.getElem_map, stepBy_getElem]

theorem getD_of_lt (l : List Nat) (i : Nat) (h : i < l.length) :
    l.getD i 0 = l[i] := by
  simp [List.getD_eq_getElem?_getD, List.getElem?_eq_getElem h]

/-- Single usable region: the flattened stream is just its address range. -/
theorem usableFlatAddrs_single (s e : Nat) :
    usableFlatAddrs [⟨s, e, .Usable⟩] = List.range' s (e - s) := by
  simp [usableFlatAddrs, regionAddrs]

/-- Two usable regions: concatenation of the two address ranges. -/
theorem usableFlatAddrs_pair (s₁ e₁ s₂ e₂ : Nat) :
    usableFlatAddrs [⟨s₁, e₁, .Usable⟩, ⟨s₂, e₂, .Usable⟩] =
      List.range' s₁ (e₁ - s₁) ++ List.range' s₂ (e₂ - s₂) := by
  simp [usableFlatAddrs, regionAddrs]

/-- Closed form of usable_frames on a map holding one usable region of
length L: one frame per started 4096-byte chunk, ⌈L/4096⌉ of them. -/
theorem usable_frames_single (s L : Nat) :
    usable_frames [⟨s, s + L, .Usable⟩] =
      (List.range ((L + 4095) / 4096)).map
        fun i => containing_address (s + i * 4096) := by
  have hflat : usableFlatAddrs [⟨s, s + L, .Usable⟩] = List.range' s L := by
    rw [usableFlatAddrs_single]
    congr 1
    omega
  simp only [usable_frames, stepBy, hflat, List.length_range', List.map_map]
  apply List.map_congr_left
  intro i hi
  rw [List.mem_range] at hi
  have hlt : i * 4096 < L := stepBy_index_lt (by norm_num) hi
  simp only [Function.comp_apply, List.getD_eq_getElem?_getD,
    List.getElem?_range' _ _ hlt, Option.getD_some]
  ring_nf

theorem allocCalls_length (a : BootInfoFrameAllocator) (n : Nat) :
    (allocCalls a n).length = n := by
  induction n generalizing a with
  | zero => rfl
  | succ n ih => simp [allocCalls, BootInfoFrameAllocator.allocate_frame, ih]

/-- The i-th of n successive allocate_frame calls starting at cursor k
returns element k + i of the usable-frame sequence (when it exists). -/
theorem allocCalls_getElem (mm : List MemoryRegion) (k n i : Nat) (h : i < n) :
    (allocCalls ⟨mm, k⟩ n)[i]? = some ((usable_frames mm)[k + i]?) := by
  induction n generalizing k i with
  | zero => omega
  | succ n ih =>
    cases i with
    | zero => simp [allocCalls, BootInfoFrameAllocator.allocate_frame]
    | succ i =>
      have hrec := ih (k + 1) i (by omega)
      simp only [allocCalls, BootInfoFrameAllocator.allocate_frame,
        List.getElem?_cons_succ]
      rw [hrec]
      congr 2
      omega

/-- Every frame address the allocator produces is 4096-byte aligned. -/
theorem usable_frames_aligned (mm : List MemoryRegion) :
    ∀ x ∈ usable_frames mm, x % 4096 = 0 := by
  intro x hx
  simp only [usable_frames, List.mem_map] at hx
  obtain ⟨a, -, rfl⟩ := hx
  simp [containing_address, Nat.mul_mod_left]

/-- The firmware memory map discipline under which the bump allocator is
well behaved: the usable regions appear in ascending address order and do
not overlap (each ends at or before the next begins). -/
def RegionsOrdered (memory_map : List MemoryRegion) : Prop :=
  (memory_map.filter fun r => r.kind == MemoryRegionKind.Usable).Pairwise
    fun r s => r.endAddr ≤ s.startAddr

theorem regionAddrs_pairwise (r : MemoryRegion) :
    (regionAddrs r).Pairwise (· < ·) := by
  simpa [regionAddrs] using List.pairwise_lt_range' r.startAddr _

theorem usableFlatAddrs_pairwise {mm : List MemoryRegion}
    (h : RegionsOrdered mm) : (usableFlatAddrs mm).Pairwise (· < ·) := by
  unfold usableFlatAddrs
  rw [List.pairwise_flatMap]
  refine ⟨fun r _ => regionAddrs_pairwise r, ?_⟩
  refine h.imp ?_
  intro r s hrs a ha b hb
  simp only [regionAddrs, List.mem_range'_1] at ha hb
  omega

/-- In a strictly increasing list of naturals, moving k positions to the
right increases the value by at least k. -/
theorem pairwise_lt_getElem_add {l : List Nat} (hp : l.Pairwise (· < ·))
    (i k : Nat) (h : i + k < l.length) (hi : i < l.length) :
    l[i] + k ≤ l[i + k] := by
  induction k with
  | zero => simp
  | succ k ih =>
    have hk : i + k < l.length := by omega
    have hstep : l[i + k] < l[i + (k + 1)] := by
      rw [List.pairwise_iff_getElem] at hp
      exact hp (i + k) (i + (k + 1)) hk h (by omega)
    have hrec := ih hk
    omega

/-- In a strictly increasing list of naturals the value at j exceeds the
value at i ≤ j by at least j - i. -/
theorem pairwise_lt_getElem_le {l : List Nat} (hp : l.Pairwise (· < ·))
    (i j : Nat) (hij : i ≤ j) (hj : j < l.length) (hi : i < l.length) :
    l[i] + (j - i) ≤ l[j] := by
  have h1 := pairwise_lt_getElem_add hp i (j - i) (by omega) hi
  have hidx : i + (j - i) = j := by omega
  simp only [hidx] at h1
  exact h1

/-- For an ordered, non-overlapping memory map the produced frame
addresses are strictly increasing. -/
theorem usable_frames_pairwise {mm : List MemoryRegion}
    (h : RegionsOrdered mm) : (usable_frames mm).Pairwise (· < ·) := by
  have hflat := usableFlatAddrs_pairwise h
  rw [List.pairwise_iff_getElem]
  intro i j hi hj hij
  have hlen : (usable_frames mm).length =
      ((usableFlatAddrs mm).length + 4095) / 4096 := usable_frames_length mm
  have hiL : i * 4096 < (usableFlatAddrs mm).length :=
    stepBy_index_lt (by norm_num) (by omega)
  have hjL : j * 4096 < (usableFlatAddrs mm).length :=
    stepBy_index_lt (by norm_num) (by omega)
  rw [usable_frames_getElem mm i hi, usable_frames_getElem mm j hj]
  have hmul : i * 4096 ≤ j * 4096 := Nat.mul_le_mul_right _ (by omega)
  have hgap := pairwise_lt_getElem_le hflat (i * 4096) (j * 4096) hmul hjL hiL
  have hsub : (j - i) * 4096 = j * 4096 - i * 4096 := Nat.sub_mul j i 4096
  have hone : 4096 ≤ (j - i) * 4096 := by
    calc (4096 : Nat) = 1 * 4096 := by norm_num
    _ ≤ (j - i) * 4096 := Nat.mul_le_mul_right _ (by omega)
  rw [← getD_of_lt _ _ hiL, ← getD_of_lt _ _ hjL] at hgap
  revert hgap
  generalize (usableFlatAddrs mm).getD (i * 4096) 0 = A
  generalize (usableFlatAddrs mm).getD (j * 4096) 0 = B
  intro hgap
  unfold containing_address
  omega

theorem getD_range'_append_left {s1 n1 i : Nat} (l : List Nat) (h : i < n1) :
    (List.range' s1 n1 ++ l).getD i 0 = s1 + i := by
  rw [List.getD_eq_getElem?_getD,
    List.getElem?_append_left (by simpa using h),
    List.getElem?_range' _ _ h]
  simp

theorem getD_range'_append_right {s1 n1 s2 n2 i : Nat}
    (h1 : n1 ≤ i) (h2 : i - n1 < n2) :
    (List.range' s1 n1 ++ List.range' s2 n2).getD i 0 = s2 + (i - n1) := by
  rw [List.getD_eq_getElem?_getD,
    List.getElem?_append_right (by simpa using h1)]
  simp only [List.length_range']
  rw [List.getElem?_range' _ _ h2]
  simp

/-- One usable region covering two whole frames: exactly the two frames. -/
theorem usable_frames_msTwo :
    usable_frames [⟨0, 8192, MemoryRegionKind.Usable⟩] = [0, 4096] := by
  have h := usable_frames_single 0 8192
  norm_num at h
  rw [h]
  decide

/-- One usable region of one whole frame: exactly that frame. -/
theorem usable_frames_msOne :
    usable_frames [⟨0, 4096, MemoryRegionKind.Usable⟩] = [0] := by
  have h := usable_frames_single 0 4096
  norm_num at h
  rw [h]
  decide

/-- One usable region starting at the unaligned address 100: the single
produced frame is frame 0, which starts before the region does. -/
theorem usable_frames_msUnaligned :
    usable_frames [⟨100, 4196, MemoryRegionKind.Usable⟩] = [0] := by
  have h := usable_frames_single 100 4096
  norm_num at h
  rw [h]
  decide

/-- Two usable regions listed in descending address order: the produced
frame addresses are not increasing. -/
theorem usable_frames_msDesc :
    usable_frames [⟨4096, 8192, MemoryRegionKind.Usable⟩,
      ⟨0, 4096, MemoryRegionKind.Usable⟩] = [4096, 0] := by
  have hflat : usableFlatAddrs [⟨4096, 8192, MemoryRegionKind.Usable⟩,
      ⟨0, 4096, MemoryRegionKind.Usable⟩] =
      List.range' 4096 4096 ++ List.range' 0 4096 := by
    have h := usableFlatAddrs_pair 4096 8192 0 4096
    norm_num at h
    exact h
  apply List.ext_getElem
  · rw [usable_frames_length, hflat]
    simp
  · intro i h1 h2
    rw [usable_frames_getElem _ _ h1, hflat]
    have hi2 : i < 2 := by simpa using h2
    interval_cases i
    · rw [getD_range'_append_left _ (by norm_num)]
      norm_num [containing_address]
    · rw [getD_range'_append_right (by norm_num) (by norm_num)]
      norm_num [containing_address]

/-- Two overlapping usable regions: the frame at address 4096 is produced
twice. -/
theorem usable_frames_msOverlap :
    usable_frames [⟨0, 8192, MemoryRegionKind.Usable⟩,
      ⟨4096, 12288, MemoryRegionKind.Usable⟩] = [0, 4096, 4096, 8192] := by
  have hflat : usableFlatAddrs [⟨0, 8192, MemoryRegionKind.Usable⟩,
      ⟨4096, 12288, MemoryRegionKind.Usable⟩] =
      List.range' 0 8192 ++ List.range' 4096 8192 := by
    have h := usableFlatAddrs_pair 0 8192 4096 12288
    norm_num at h
    exact h
  apply List.ext_getElem
  · rw [usable_frames_length, hflat]
    simp
  · intro i h1 h2
    rw [usable_frames_getElem _ _ h1, hflat]
    have hi4 : i < 4 := by simpa using h2
    interval_cases i
    · rw [getD_range'_append_left _ (by norm_num)]
      norm_num [containing_address]
    · rw [getD_range'_append_left _ (by norm_num)]
      norm_num [containing_address]
    · rw [getD_range'_append_right (by norm_num) (by norm_num)]
      norm_num [containing_address]
    · rw [getD_range'_append_right (by norm_num) (by norm_num)]
      norm_num [containing_address]

/-- The n successive allocation results from a fresh allocator are the
first n entries of the usable-frame sequence, then none. -/
theorem allocCalls_init_eq (mm : List MemoryRegion) (n : Nat) :
    allocCalls (BootInfoFrameAllocator.init mm) n =
      (List.range n).map fun i => (usable_frames mm)[i]? := by
  apply List.ext_getElem?
  intro i
  by_cases h : i < n
  · rw [show BootInfoFrameAllocator.init mm = ⟨mm, 0⟩ from rfl,
      allocCalls_getElem mm 0 n i h]
    rw [List.getElem?_map, List.getElem?_range h]
    simp
  · have h1 : n ≤ i := by omega
    rw [List.getElem?_eq_none, List.getElem?_eq_none]
    · simpa using h1
    · rw [allocCalls_length]
      exact h1

/-- A present allocation result is an in-bounds entry of usable_frames. -/
theorem allocCalls_some {mm : List MemoryRegion} {n i x : Nat}
    (h : (allocCalls (BootInfoFrameAllocator.init mm) n)[i]? = some (some x)) :
    i < n ∧ ∃ hi : i < (usable_frames mm).length,
      (usable_frames mm).get ⟨i, hi⟩ = x := by
  rw [allocCalls_init_eq] at h
  by_cases hin : i < n
  · rw [List.getElem?_map, List.getElem?_range hin] at h
    have h2 : (usable_frames mm)[i]? = some x := by
      simpa using h
    rw [List.getElem?_eq_some_iff] at h2
    obtain ⟨hi, hx⟩ := h2
    exact ⟨hin, hi, by simpa using hx⟩
  · exfalso
    rw [List.getElem?_eq_none (by simpa using Nat.le_of_not_lt hin)] at h
    exact Option.noConfusion h

/-- allocate_frame advances the cursor by exactly one on every call. -/
theorem allocate_frame_next (a : BootInfoFrameAllocator) :
    (a.allocate_frame).2.next = a.next + 1 := rfl

/-- When every needed intermediate table already exists, map_to allocates
nothing and the allocator is untouched. -/
theorem createMissingTables_all_present (need : List (Nat × Nat))
    (tables : List (Nat × Nat)) (a : BootInfoFrameAllocator)
    (h : ∀ t ∈ need, t ∈ tables) :
    createMissingTables need tables a = (.ok tables, a) := by
  induction need with
  | nil => rfl
  | cons t rest ih =>
    rw [createMissingTables, if_pos (h t (by simp))]
    exact ih fun u hu => h u (by simp [hu])

/-- The only error createMissingTables ever produces is
FrameAllocationFailed. -/
theorem createMissingTables_error (need : List (Nat × Nat)) :
    ∀ (tables : List (Nat × Nat)) (a : BootInfoFrameAllocator)
      (e : MapToError),
      (createMissingTables need tables a).1 = .error e →
      e = .FrameAllocationFailed := by
  induction need with
  | nil => intro tables a e h; simp [createMissingTables] at h
  | cons t rest ih =>
    intro tables a e h
    rw [createMissingTables] at h
    by_cases htm : t ∈ tables
    · rw [if_pos htm] at h
      exact ih _ _ _ h
    · rw [if_neg htm] at h
      cases hx : (usable_frames a.memory_map)[a.next]? with
      | none =>
        simp [BootInfoFrameAllocator.allocate_frame, hx] at h
        exact h.symm
      | some f =>
        simp [BootInfoFrameAllocator.allocate_frame, hx] at h
        exact ih _ _ _ h

/-- map_to on a page with all tables present and no existing translation:
success, no frame consumed. -/
theorem map_to_all_present (pt : OffsetPageTable) (page frame : Nat)
    (flags : PageTableFlags) (a : BootInfoFrameAllocator)
    (htab : ∀ t ∈ tableIds page, t ∈ pt.tables)
    (hun : pt.translations.lookup page = none) :
    map_to pt page frame flags a =
      (.ok ⟨pt.tables, (page, frame) :: pt.translations⟩, a) := by
  unfold map_to
  rw [createMissingTables_all_present _ _ _ htab, hun]

/-- A failing map_to on a not-yet-mapped page reports exactly
FrameAllocationFailed — the same value init_heap uses for an exhausted
allocator. -/
theorem map_to_error_unmapped (pt : OffsetPageTable) (page frame : Nat)
    (flags : PageTableFlags) (a : BootInfoFrameAllocator) (e : MapToError)
    (hun : pt.translations.lookup page = none)
    (h : (map_to pt page frame flags a).1 = .error e) :
    e = .FrameAllocationFailed := by
  unfold map_to at h
  cases hc : createMissingTables (tableIds page) pt.tables a with
  | mk r a' =>
    cases r with
    | error e' =>
      rw [hc] at h
      simp at h
      rw [← h]
      exact createMissingTables_error _ _ _ _ (by rw [hc])
    | ok tables' =>
      rw [hc, hun] at h
      simp at h

/-- The heap loop when the allocator holds enough frames and all
intermediate tables exist: every page gets the next frame in sequence,
one attempt per page, and the cursor advances by the page count. -/
theorem init_heap_loop_success (pages : List Nat) :
    ∀ (pt : OffsetPageTable) (a : BootInfoFrameAllocator),
      (∀ p ∈ pages, ∀ t ∈ tableIds p, t ∈ pt.tables) →
      (∀ p ∈ pages, pt.translations.lookup p = none) →
      pages.Nodup →
      a.next + pages.length ≤ (usable_frames a.memory_map).length →
      init_heap_loop pages pt a =
        ⟨.ok (), ⟨pt.tables,
            (pages.zip ((usable_frames a.memory_map).drop a.next)).reverse
              ++ pt.translations⟩,
          ⟨a.memory_map, a.next + pages.length⟩, pages.length, pages⟩ := by
  induction pages with
  | nil =>
    intro pt a _ _ _ _
    simp [init_heap_loop]
  | cons page rest ih =>
    intro pt a htab hun hnodup hlen
    have hnext : a.next < (usable_frames a.memory_map).length := by
      simp only [List.length_cons] at hlen
      omega
    have hsome : (usable_frames a.memory_map)[a.next]? =
        some (usable_frames a.memory_map)[a.next] :=
      List.getElem?_eq_getElem hnext
    rw [init_heap_loop]
    simp only [BootInfoFrameAllocator.allocate_frame, hsome]
    rw [map_to_all_present _ _ _ _ _
      (htab page (by simp)) (hun page (by simp))]
    have hrec := ih ⟨pt.tables, (page, (usable_frames a.memory_map)[a.next]) ::
        pt.translations⟩ ⟨a.memory_map, a.next + 1⟩
      (fun p hp t ht => htab p (by simp [hp]) t ht)
      (fun p hp => by
        have hne : p ≠ page := by
          intro hcontra
          subst hcontra
          exact (List.nodup_cons.mp hnodup).1 hp
        rw [List.lookup_cons]
        simp only [beq_false_of_ne hne]
        exact hun p (by simp [hp]))
      (List.nodup_cons.mp hnodup).2
      (by simp only [List.length_cons] at hlen; simpa using by omega)
    simp only [hrec]
    rw [List.drop_eq_getElem_cons hnext, List.zip_cons_cons,
      List.reverse_cons, List.append_assoc]
    simp [Nat.add_assoc, Nat.add_comm 1 rest.length]

/-- The heap loop when only m < pages.length frames remain and all
intermediate tables exist: the first m pages are mapped, the (m+1)-th
attempt hits the exhausted allocator, the loop aborts with
FrameAllocationFailed, and the mappings made so far are kept. -/
theorem init_heap_loop_failure (pages : List Nat) :
    ∀ (pt : OffsetPageTable) (a : BootInfoFrameAllocator) (m : Nat),
      (∀ p ∈ pages, ∀ t ∈ tableIds p, t ∈ pt.tables) →
      (∀ p ∈ pages, pt.translations.lookup p = none) →
      pages.Nodup →
      (usable_frames a.memory_map).length = a.next + m →
      m < pages.length →
      init_heap_loop pages pt a =
        ⟨.error .FrameAllocationFailed, ⟨pt.tables,
            ((pages.take m).zip
                ((usable_frames a.memory_map).drop a.next)).reverse
              ++ pt.translations⟩,
          ⟨a.memory_map, a.next + m + 1⟩, m + 1, pages.take m⟩ := by
  induction pages with
  | nil =>
    intro pt a m _ _ _ _ hm
    simp at hm
  | cons page rest ih =>
    intro pt a m htab hun hnodup hlen hm
    cases m with
    | zero =>
      have hnone : (usable_frames a.memory_map)[a.next]? = none :=
        List.getElem?_eq_none (by omega)
      rw [init_heap_loop]
      simp [BootInfoFrameAllocator.allocate_frame, hnone]
    | succ m' =>
      have hnext : a.next < (usable_frames a.memory_map).length := by omega
      have hsome : (usable_frames a.memory_map)[a.next]? =
          some (usable_frames a.memory_map)[a.next] :=
        List.getElem?_eq_getElem hnext
      rw [init_heap_loop]
      simp only [BootInfoFrameAllocator.allocate_frame, hsome]
      rw [map_to_all_present _ _ _ _ _
        (htab page (by simp)) (hun page (by simp))]
      have hrec := ih ⟨pt.tables,
          (page, (usable_frames a.memory_map)[a.next]) :: pt.translations⟩
        ⟨a.memory_map, a.next + 1⟩ m'
        (fun p hp t ht => htab p (by simp [hp]) t ht)
        (fun p hp => by
          have hne : p ≠ page := by
            intro hcontra
            subst hcontra
            exact (List.nodup_cons.mp hnodup).1 hp
          rw [List.lookup_cons]
          simp only [beq_false_of_ne hne]
          exact hun p (by simp [hp]))
        (List.nodup_cons.mp hnodup).2
        (by simpa using by omega)
        (by simp only [List.length_cons] at hm; omega)
      simp only [hrec]
      rw [List.drop_eq_getElem_cons hnext, List.take_succ_cons,
        List.zip_cons_cons, List.reverse_cons, List.append_assoc]
      simp [Nat.add_assoc, Nat.add_comm 1 m']

/-- map_to inversion: success prepends exactly the requested translation. -/
theorem map_to_ok_translations {pt pt' : OffsetPageTable} {page frame : Nat}
    {flags : PageTableFlags} {a a' : BootInfoFrameAllocator}
    (h : map_to pt page frame flags a = (.ok pt', a')) :
    pt'.translations = (page, frame) :: pt.translations := by
  unfold map_to at h
  cases hc : createMissingTables (tableIds page) pt.tables a with
  | mk r a2 =>
    rw [hc] at h
    cases r with
    | error e => simp at h
    | ok tables' =>
      cases hl : pt.translations.lookup page with
      | some f2 =>
        rw [hl] at h
        simp at h
      | none =>
        rw [hl] at h
        simp at h
        rw [← h.1]

/-- Every failure of the heap loop on pairwise-distinct, not-yet-mapped
pages carries the same error value, FrameAllocationFailed — whether the
page's own frame allocation was refused (out of memory) or map_to failed
to obtain an intermediate-table frame. -/
theorem init_heap_loop_error_value (pages : List Nat) :
    ∀ (pt : OffsetPageTable) (a : BootInfoFrameAllocator) (e : MapToError),
      (∀ p ∈ pages, pt.translations.lookup p = none) →
      pages.Nodup →
      (init_heap_loop pages pt a).result = .error e →
      e = .FrameAllocationFailed := by
  induction pages with
  | nil =>
    intro pt a e _ _ h
    simp [init_heap_loop] at h
  | cons page rest ih =>
    intro pt a e hun hnodup h
    rw [init_heap_loop] at h
    cases hx : (usable_frames a.memory_map)[a.next]? with
    | none =>
      simp [BootInfoFrameAllocator.allocate_frame, hx] at h
      exact h.symm
    | some f =>
      simp only [BootInfoFrameAllocator.allocate_frame, hx] at h
      cases hm : map_to pt page f ⟨true, true⟩ ⟨a.memory_map, a.next + 1⟩ with
      | mk r a2 =>
        cases r with
        | error e2 =>
          rw [hm] at h
          simp at h
          rw [← h]
          exact map_to_error_unmapped _ _ _ _ _ _
            (hun page (by simp)) (by rw [hm])
        | ok pt' =>
          rw [hm] at h
          simp only at h
          refine ih pt' ⟨a2.memory_map, a2.next⟩ e ?_
            (List.nodup_cons.mp hnodup).2 ?_
          · intro p hp
            rw [map_to_ok_translations hm, List.lookup_cons]
            have hne : p ≠ page := by
              intro hcontra
              subst hcontra
              exact (List.nodup_cons.mp hnodup).1 hp
            simp only [beq_false_of_ne hne]
            exact hun p (by simp [hp])
          · simpa using h

/-- For a page-aligned start and positive size, init_heap's inclusive page
range has exactly ⌈S/4096⌉ pages. -/
theorem heap_page_range_length (heap_start heap_size : Nat)
    (h1 : 0 < heap_size) (h2 : heap_start % 4096 = 0) :
    (heap_page_range heap_start heap_size).length = (heap_size + 4095) / 4096 := by
  simp only [heap_page_range, page_containing, List.length_range']
  omega

theorem heap_page_range_nodup (heap_start heap_size : Nat) :
    (heap_page_range heap_start heap_size).Nodup :=
  List.nodup_range' _ _

theorem heap_page_range_ascending (heap_start heap_size : Nat) :
    (heap_page_range heap_start heap_size).Pairwise (· < ·) :=
  List.pairwise_lt_range' _ _

/-- A key occurring in the front part of an association list is found. -/
theorem lookup_isSome_append {p : Nat} (l old : List (Nat × Nat))
    (h : p ∈ l.map Prod.fst) : ((l ++ old).lookup p).isSome := by
  induction l with
  | nil => simp at h
  | cons q rest ih =>
    obtain ⟨k, v⟩ := q
    rw [List.cons_append, List.lookup_cons]
    cases hb : (p == k) with
    | true => simp
    | false =>
      apply ih
      simp only [List.map_cons, List.mem_cons] at h
      cases h with
      | inl h1 => exact absurd h1 (ne_of_beq_false hb)
      | inr h2 => exact h2

/-! ## Claim theorems -/

/-- C1 counterexample: a single usable region of length L = 4097 yields 2
frames, not ⌊4097/4096⌋ = 1 — the trailing partial chunk is not dropped;
step_by still yields its first address. -/
theorem claim_C1_counterexample :
    (usable_frames [⟨0, 4097, MemoryRegionKind.Usable⟩]).length = 2 ∧
      (4097 : Nat) / 4096 = 1 := by
  constructor
  · rw [usable_frames_length, usableFlatAddrs_single]
    norm_num
  · norm_num

/-- C1 (amended): a map holding a single usable region of byte length L
contributes exactly ⌈L/4096⌉ frames (a trailing partial chunk still
contributes one frame), and any region whose kind is not Usable
contributes zero frames: deleting it from the map leaves the frame
sequence unchanged. -/
theorem claim_C1_single_region_count_and_reserved (s L : Nat) :
    (usable_frames [⟨s, s + L, MemoryRegionKind.Usable⟩]).length =
      (L + 4095) / 4096 ∧
    ∀ (mm₁ mm₂ : List MemoryRegion) (r : MemoryRegion),
      r.kind ≠ MemoryRegionKind.Usable →
      usable_frames (mm₁ ++ r :: mm₂) = usable_frames (mm₁ ++ mm₂) := by
  constructor
  · rw [usable_frames_length, usableFlatAddrs_single]
    have hL : s + L - s = L := by omega
    rw [List.length_range', hL]
  · intro mm₁ mm₂ r hr
    unfold usable_frames usableFlatAddrs
    rw [List.filter_append, List.filter_append, List.filter_cons,
      beq_false_of_ne hr]
    simp

/-- C10: for the memory map with the single usable region [100, 4196),
whose start is not 4096-aligned, the first allocate_frame call yields
frame 0, whose 4096-byte range begins at address 0, before the region's
start address 100. -/
theorem claim_C10_unaligned_region :
    (100 : Nat) % 4096 ≠ 0 ∧
    usable_frames [⟨100, 4196, MemoryRegionKind.Usable⟩] = [0] ∧
    ((BootInfoFrameAllocator.init
        [⟨100, 4196, MemoryRegionKind.Usable⟩]).allocate_frame).1 = some 0 ∧
    (0 : Nat) < 100 := by
  refine ⟨by norm_num, usable_frames_msUnaligned, ?_, by norm_num⟩
  simp [BootInfoFrameAllocator.allocate_frame, BootInfoFrameAllocator.init,
    usable_frames_msUnaligned]

/-- C9: the double-fault handler records exactly one diagnostic line (the
kernel-panic line carrying the double-fault context), unconditionally
enters the fatal halt state, and the halt loop emits no further
diagnostic output at any later step — the handler never returns. -/
theorem claim_C9_double_fault_diverges (sf : InterruptStackFrame) (ec : Nat) :
    (double_fault_handler sf ec).logs =
      [LogLine.kernelPanicLine (PanicMsg.doubleFault sf)] ∧
    (double_fault_handler sf ec).final = HaltState.halt ∧
    ∀ n, hltLoopIter n HaltState.halt = (HaltState.halt, []) := by
  refine ⟨rfl, rfl, ?_⟩
  intro n
  induction n with
  | zero => rfl
  | succ n ih => simp [hltLoopIter, hltLoopStep, ih]

/-- C3 counterexample: with the usable regions listed in descending
address order, the two allocate_frame calls yield 4096 then 0 — the
produced frame addresses are not strictly increasing, so the claim fails
for arbitrary region lists. -/
theorem claim_C3_counterexample :
    allocCalls (BootInfoFrameAllocator.init
      [⟨4096, 8192, MemoryRegionKind.Usable⟩,
       ⟨0, 4096, MemoryRegionKind.Usable⟩]) 2 = [some 4096, some 0] ∧
    ¬ (4096 : Nat) < 0 := by
  constructor
  · rw [allocCalls_init_eq, usable_frames_msDesc]
    decide
  · decide

/-- C3 (amended): every frame address any allocate_frame call produces is
4096-byte aligned, for any list of Memory Regions; and for memory maps
whose usable regions are in ascending order and non-overlapping, the
addresses produced by successive allocate_frame calls are strictly
increasing. -/
theorem claim_C3_increasing_aligned :
    (∀ (mm : List MemoryRegion) (n i x : Nat),
      (allocCalls (BootInfoFrameAllocator.init mm) n)[i]? = some (some x) →
      x % 4096 = 0) ∧
    (∀ mm : List MemoryRegion, RegionsOrdered mm →
      ∀ n i j x y : Nat, i < j →
      (allocCalls (BootInfoFrameAllocator.init mm) n)[i]? = some (some x) →
      (allocCalls (BootInfoFrameAllocator.init mm) n)[j]? = some (some y) →
      x < y) := by
  constructor
  · intro mm n i x hi
    obtain ⟨hin, hix, hgx⟩ := allocCalls_some hi
    rw [← hgx]
    exact usable_frames_aligned mm _ (List.get_mem _ _ _)
  · intro mm h n i j x y hij hi hj
    obtain ⟨hin, hix, hgx⟩ := allocCalls_some hi
    obtain ⟨hjn, hjy, hgy⟩ := allocCalls_some hj
    have hp := usable_frames_pairwise h
    rw [List.pairwise_iff_getElem] at hp
    have hlt := hp i j hix hjy hij
    rw [List.get_eq_getElem] at hgx hgy
    rw [hgx, hgy] at hlt
    exact hlt

/-- C3 witness: the first two allocation results on the ordered one-region
map [0, 8192) are strictly increasing, and both they and the first result
on the unordered descending map are 4096-aligned. -/
theorem claim_C3_witness :
    RegionsOrdered [⟨0, 8192, MemoryRegionKind.Usable⟩] ∧
    (0 : Nat) < 4096 ∧ (0 : Nat) % 4096 = 0 ∧ (4096 : Nat) % 4096 = 0 := by
  have hord : RegionsOrdered [⟨0, 8192, MemoryRegionKind.Usable⟩] := by
    unfold RegionsOrdered
    simp
  have h0 : (allocCalls (BootInfoFrameAllocator.init
      [⟨0, 8192, MemoryRegionKind.Usable⟩]) 2)[0]? = some (some 0) := by
    rw [allocCalls_init_eq, usable_frames_msTwo]
    decide
  have h1 : (allocCalls (BootInfoFrameAllocator.init
      [⟨0, 8192, MemoryRegionKind.Usable⟩]) 2)[1]? = some (some 4096) := by
    rw [allocCalls_init_eq, usable_frames_msTwo]
    decide
  have hdesc : (allocCalls (BootInfoFrameAllocator.init
      [⟨4096, 8192, MemoryRegionKind.Usable⟩,
       ⟨0, 4096, MemoryRegionKind.Usable⟩]) 2)[0]? = some (some 4096) := by
    rw [allocCalls_init_eq, usable_frames_msDesc]
    decide
  refine ⟨hord,
    claim_C3_increasing_aligned.2 _ hord 2 0 1 0 4096 (by norm_num) h0 h1,
    claim_C3_increasing_aligned.1 _ 2 0 0 h0, ?_⟩
  have h4096 := claim_C3_increasing_aligned.1 _ 2 0 4096 hdesc
  exact h4096

/-- C4: with exactly N usable frames, each of the first N allocate_frame
calls returns a present value, the (N+1)-th returns the explicit empty
result, and every call past exhaustion keeps returning the empty result —
no previously yielded frame is ever repeated or wrapped around. The
allocator is a pure function of the memory map and cursor, so the outcome
is deterministic. -/
theorem claim_C4_exhaustion {mm : List MemoryRegion} {N : Nat}
    (h : (usable_frames mm).length = N) :
    (∀ i, i < N → (allocCalls (BootInfoFrameAllocator.init mm) (N + 1))[i]? =
      some ((usable_frames mm)[i]?) ∧ ((usable_frames mm)[i]?).isSome) ∧
    ((allocCalls (BootInfoFrameAllocator.init mm) (N + 1))[N]? = some none) ∧
    (∀ n k, N ≤ k → k < n →
      (allocCalls (BootInfoFrameAllocator.init mm) n)[k]? = some none) := by
  refine ⟨?_, ?_, ?_⟩
  · intro i hi
    constructor
    · rw [allocCalls_init_eq, List.getElem?_map, List.getElem?_range (by omega)]
      rfl
    · rw [List.getElem?_eq_getElem (by omega)]
      rfl
  · rw [allocCalls_init_eq, List.getElem?_map, List.getElem?_range (by omega)]
    have hn : (usable_frames mm)[N]? = none := List.getElem?_eq_none (by omega)
    simp [hn]
  · intro n k hNk hkn
    rw [allocCalls_init_eq, List.getElem?_map, List.getElem?_range hkn]
    have hn : (usable_frames mm)[k]? = none := List.getElem?_eq_none (by omega)
    simp [hn]

/-- C4 witness: the map with one usable region [0, 8192) has N = 2 frames;
calls 1 and 2 are present, call 3 and every later call are empty. -/
theorem claim_C4_witness :
    (usable_frames [⟨0, 8192, MemoryRegionKind.Usable⟩]).length = 2 ∧
    (allocCalls (BootInfoFrameAllocator.init
      [⟨0, 8192, MemoryRegionKind.Usable⟩]) 3)[2]? = some none := by
  have hlen : (usable_frames [⟨0, 8192, MemoryRegionKind.Usable⟩]).length = 2 := by
    rw [usable_frames_msTwo]
    rfl
  exact ⟨hlen, (claim_C4_exhaustion hlen).2.1⟩

/-- C7 counterexample: with overlapping usable regions, the frame 4096
yielded by the second call is yielded again by the third call, so "a frame
already yielded is never yielded again" fails for arbitrary maps. -/
theorem claim_C7_counterexample :
    allocCalls (BootInfoFrameAllocator.init
      [⟨0, 8192, MemoryRegionKind.Usable⟩,
       ⟨4096, 12288, MemoryRegionKind.Usable⟩]) 4 =
      [some 0, some 4096, some 4096, some 8192] ∧
    (allocCalls (BootInfoFrameAllocator.init
      [⟨0, 8192, MemoryRegionKind.Usable⟩,
       ⟨4096, 12288, MemoryRegionKind.Usable⟩]) 4)[1]? =
    (allocCalls (BootInfoFrameAllocator.init
      [⟨0, 8192, MemoryRegionKind.Usable⟩,
       ⟨4096, 12288, MemoryRegionKind.Usable⟩]) 4)[2]? := by
  constructor
  · rw [allocCalls_init_eq, usable_frames_msOverlap]
    decide
  · rw [allocCalls_init_eq, usable_frames_msOverlap]
    decide

/-- C7 (amended): the cursor advances by exactly one on every
allocate_frame call, for any allocator state, also when no frame is
returned; and for memory maps whose usable regions are ascending and
non-overlapping, no frame value is ever yielded by two distinct calls. -/
theorem claim_C7_cursor_no_reyield {mm : List MemoryRegion}
    (h : RegionsOrdered mm) :
    (∀ al : BootInfoFrameAllocator, (al.allocate_frame).2.next = al.next + 1) ∧
    (∀ n i j x y : Nat, i ≠ j →
      (allocCalls (BootInfoFrameAllocator.init mm) n)[i]? = some (some x) →
      (allocCalls (BootInfoFrameAllocator.init mm) n)[j]? = some (some y) →
      x ≠ y) := by
  constructor
  · intro al
    rfl
  · intro n i j x y hij hi hj
    obtain ⟨hin, hix, hgx⟩ := allocCalls_some hi
    obtain ⟨hjn, hjy, hgy⟩ := allocCalls_some hj
    have hp := usable_frames_pairwise h
    rw [List.pairwise_iff_getElem] at hp
    rw [List.get_eq_getElem] at hgx hgy
    rcases Nat.lt_or_ge i j with hlt | hge
    · have := hp i j hix hjy hlt
      rw [hgx, hgy] at this
      omega
    · have hlt2 : j < i := by omega
      have := hp j i hjy hix hlt2
      rw [hgx, hgy] at this
      omega

/-- C7 witness: on the ordered one-region map [0, 8192) the cursor
advances by one and the first two yielded frames 0 and 4096 differ. -/
theorem claim_C7_witness :
    RegionsOrdered [⟨0, 8192, MemoryRegionKind.Usable⟩] ∧
    ((BootInfoFrameAllocator.init
      [⟨0, 8192, MemoryRegionKind.Usable⟩]).allocate_frame).2.next = 1 ∧
    (0 : Nat) ≠ 4096 := by
  have hord : RegionsOrdered [⟨0, 8192, MemoryRegionKind.Usable⟩] := by
    unfold RegionsOrdered
    simp
  have h0 : (allocCalls (BootInfoFrameAllocator.init
      [⟨0, 8192, MemoryRegionKind.Usable⟩]) 2)[0]? = some (some 0) := by
    rw [allocCalls_init_eq, usable_frames_msTwo]
    decide
  have h1 : (allocCalls (BootInfoFrameAllocator.init
      [⟨0, 8192, MemoryRegionKind.Usable⟩]) 2)[1]? = some (some 4096) := by
    rw [allocCalls_init_eq, usable_frames_msTwo]
    decide
  refine ⟨hord, (claim_C7_cursor_no_reyield hord).1 _, ?_⟩
  exact (claim_C7_cursor_no_reyield hord).2 2 0 1 0 4096 (by norm_num) h0 h1

/-- C5: for a page-aligned start and positive size S, init_heap iterates
over exactly ⌈S/4096⌉ pages in ascending order, one
frame-allocation-and-map attempt per page; with enough frames it performs
all ⌈S/4096⌉ attempts and succeeds; if the allocator holds only m <
⌈S/4096⌉ frames, the frame allocation for the (m+1)-th page fails, the
call reports failure immediately after that attempt, and the m pages
mapped before the failing page are still mapped in the final state — no
rollback occurs. -/
theorem claim_C5_attempts_no_rollback (heap_start heap_size : Nat)
    (pt : OffsetPageTable) (a : BootInfoFrameAllocator)
    (hS : 0 < heap_size) (hal : heap_start % 4096 = 0)
    (htab : ∀ p ∈ heap_page_range heap_start heap_size,
      ∀ t ∈ tableIds p, t ∈ pt.tables)
    (hun : ∀ p ∈ heap_page_range heap_start heap_size,
      pt.translations.lookup p = none) :
    (heap_page_range heap_start heap_size).length =
      (heap_size + 4095) / 4096 ∧
    (heap_page_range heap_start heap_size).Pairwise (· < ·) ∧
    (a.next + (heap_size + 4095) / 4096 ≤
        (usable_frames a.memory_map).length →
      (init_heap heap_start heap_size pt a).result = .ok () ∧
      (init_heap heap_start heap_size pt a).attempts =
        (heap_size + 4095) / 4096) ∧
    (∀ m, (usable_frames a.memory_map).length = a.next + m →
      m < (heap_size + 4095) / 4096 →
      (init_heap heap_start heap_size pt a).result =
        .error MapToError.FrameAllocationFailed ∧
      (init_heap heap_start heap_size pt a).attempts = m + 1 ∧
      (init_heap heap_start heap_size pt a).mappedPages =
        (heap_page_range heap_start heap_size).take m ∧
      ∀ p ∈ (heap_page_range heap_start heap_size).take m,
        (((init_heap heap_start heap_size pt a).pt.translations).lookup
          p).isSome) := by
  have hlen := heap_page_range_length heap_start heap_size hS hal
  refine ⟨hlen, heap_page_range_ascending _ _, ?_, ?_⟩
  · intro henough
    have hsucc := init_heap_loop_success (heap_page_range heap_start heap_size)
      pt a htab hun (heap_page_range_nodup _ _) (by omega)
    unfold init_heap
    rw [hsucc]
    exact ⟨rfl, hlen⟩
  · intro m hrem hm
    have hfail := init_heap_loop_failure (heap_page_range heap_start heap_size)
      pt a m htab hun (heap_page_range_nodup _ _) hrem (by omega)
    unfold init_heap
    rw [hfail]
    refine ⟨rfl, rfl, rfl, ?_⟩
    intro p hp
    apply lookup_isSome_append
    rw [List.map_reverse, List.mem_reverse, List.map_fst_zip]
    · exact hp
    · rw [List.length_take, List.length_drop, hrem, hlen]
      omega

/-- C5 witness: heap at page-aligned start 0 of size 8192 over the
two-frame map [0, 8192) covers pages [0, 1], succeeds, and performs
exactly ⌈8192/4096⌉ = 2 attempts. -/
theorem claim_C5_witness :
    (init_heap 0 8192 ⟨tableIds 0, []⟩
      (BootInfoFrameAllocator.init
        [⟨0, 8192, MemoryRegionKind.Usable⟩])).result = .ok () ∧
    (init_heap 0 8192 ⟨tableIds 0, []⟩
      (BootInfoFrameAllocator.init
        [⟨0, 8192, MemoryRegionKind.Usable⟩])).attempts = 2 := by
  have hrange : heap_page_range 0 8192 = [0, 1] := by
    unfold heap_page_range page_containing
    norm_num
    decide
  have h := claim_C5_attempts_no_rollback 0 8192 ⟨tableIds 0, []⟩
    (BootInfoFrameAllocator.init [⟨0, 8192, MemoryRegionKind.Usable⟩])
    (by norm_num) (by norm_num)
    (by rw [hrange]; decide) (by rw [hrange]; decide)
  have hen : (BootInfoFrameAllocator.init
      [⟨0, 8192, MemoryRegionKind.Usable⟩]).next + (8192 + 4095) / 4096 ≤
      (usable_frames (BootInfoFrameAllocator.init
        [⟨0, 8192, MemoryRegionKind.Usable⟩]).memory_map).length := by
    show 0 + (8192 + 4095) / 4096 ≤
      (usable_frames [⟨0, 8192, MemoryRegionKind.Usable⟩]).length
    rw [usable_frames_msTwo]
    norm_num
  have h2 := h.2.2.1 hen
  refine ⟨h2.1, ?_⟩
  rw [h2.2]

/-- C6 counterexample: the out-of-memory failure (allocator already
exhausted when the heap page requests its frame) and the mapping failure
(map_to cannot obtain an intermediate-table frame) produce the very same
error value, MapToError.FrameAllocationFailed — the two conditions are
not signaled as distinct typed failure values. -/
theorem claim_C6_counterexample :
    (init_heap_loop [42] ⟨[], []⟩
        (BootInfoFrameAllocator.init [])).result =
      .error MapToError.FrameAllocationFailed ∧
    (init_heap_loop [42] ⟨[], []⟩
        (BootInfoFrameAllocator.init
          [⟨0, 4096, MemoryRegionKind.Usable⟩])).result =
      .error MapToError.FrameAllocationFailed ∧
    (init_heap_loop [42] ⟨[], []⟩
        (BootInfoFrameAllocator.init [])).result =
    (init_heap_loop [42] ⟨[], []⟩
        (BootInfoFrameAllocator.init
          [⟨0, 4096, MemoryRegionKind.Usable⟩])).result := by
  have h0 : (usable_frames [⟨0, 4096, MemoryRegionKind.Usable⟩])[0]? =
      some 0 := by
    rw [usable_frames_msOne]
    rfl
  have h1 : (usable_frames [⟨0, 4096, MemoryRegionKind.Usable⟩])[1]? =
      none := by
    rw [usable_frames_msOne]
    rfl
  have hB : (init_heap_loop [42] ⟨[], []⟩
      (BootInfoFrameAllocator.init
        [⟨0, 4096, MemoryRegionKind.Usable⟩])).result =
      .error MapToError.FrameAllocationFailed := by
    simp [init_heap_loop, BootInfoFrameAllocator.allocate_frame,
      BootInfoFrameAllocator.init, h0, h1, map_to, createMissingTables,
      tableIds]
  have hAz : (usable_frames ([] : List MemoryRegion))[0]? = none := rfl
  have hA : (init_heap_loop [42] ⟨[], []⟩
      (BootInfoFrameAllocator.init [])).result =
      .error MapToError.FrameAllocationFailed := by
    simp [init_heap_loop, BootInfoFrameAllocator.allocate_frame,
      BootInfoFrameAllocator.init, hAz]
  exact ⟨hA, hB, by rw [hA, hB]⟩

/-- C6 (amended): every failure that init_heap reports for a range of
pages none of which is already mapped — whether the page's own frame
allocation found the allocator exhausted, or map_to failed to obtain an
intermediate-table frame — is the single typed value
MapToError.FrameAllocationFailed; the two failure conditions are signaled
identically, not distinctly, and are handled identically by the caller. -/
theorem claim_C6_single_failure_value (heap_start heap_size : Nat)
    (pt : OffsetPageTable) (a : BootInfoFrameAllocator) (e : MapToError)
    (hun : ∀ p ∈ heap_page_range heap_start heap_size,
      pt.translations.lookup p = none)
    (h : (init_heap heap_start heap_size pt a).result = .error e) :
    e = MapToError.FrameAllocationFailed :=
  init_heap_loop_error_value _ _ _ _ hun (List.nodup_range' _ _) h

/-- C6 witness: init_heap over pages [0] with empty tables and a one-frame
allocator fails inside map_to; the reported error is
FrameAllocationFailed. -/
theorem claim_C6_witness :
    (init_heap 0 4096 ⟨[], []⟩
        (BootInfoFrameAllocator.init
          [⟨0, 4096, MemoryRegionKind.Usable⟩])).result =
      .error MapToError.FrameAllocationFailed ∧
    ∀ e, (init_heap 0 4096 ⟨[], []⟩
        (BootInfoFrameAllocator.init
          [⟨0, 4096, MemoryRegionKind.Usable⟩])).result = .error e →
      e = MapToError.FrameAllocationFailed := by
  have h0 : (usable_frames [⟨0, 4096, MemoryRegionKind.Usable⟩])[0]? =
      some 0 := by
    rw [usable_frames_msOne]
    rfl
  have h1 : (usable_frames [⟨0, 4096, MemoryRegionKind.Usable⟩])[1]? =
      none := by
    rw [usable_frames_msOne]
    rfl
  have hrange : heap_page_range 0 4096 = [0] := by
    unfold heap_page_range page_containing
    norm_num
  have hres : (init_heap 0 4096 ⟨[], []⟩
      (BootInfoFrameAllocator.init
        [⟨0, 4096, MemoryRegionKind.Usable⟩])).result =
      .error MapToError.FrameAllocationFailed := by
    unfold init_heap
    rw [hrange]
    simp [init_heap_loop, BootInfoFrameAllocator.allocate_frame,
      BootInfoFrameAllocator.init, h0, h1, map_to, createMissingTables,
      tableIds]
  refine ⟨hres, ?_⟩
  intro e he
  exact claim_C6_single_failure_value 0 4096 ⟨[], []⟩ _ e
    (by rw [hrange]; decide) he

/-- C2: over the single usable region [0, 8192) (2 frames), initializing
a heap of size 4096 at the page-aligned HEAP_START (with the intermediate
tables for the heap pages already present) succeeds and consumes exactly
one frame, leaving one; a subsequent heap initialization of size 8192 at
the next free page-aligned address then consumes the single remaining
frame for its first page and fails with the out-of-memory error
FrameAllocationFailed when the second page requests a frame. -/
theorem claim_C2_end_to_end :
    (usable_frames [⟨0, 8192, MemoryRegionKind.Usable⟩]).length = 2 ∧
    (init_heap HEAP_START 4096 ⟨tableIds (HEAP_START / 4096), []⟩
      (BootInfoFrameAllocator.init
        [⟨0, 8192, MemoryRegionKind.Usable⟩])).result = .ok () ∧
    (init_heap HEAP_START 4096 ⟨tableIds (HEAP_START / 4096), []⟩
      (BootInfoFrameAllocator.init
        [⟨0, 8192, MemoryRegionKind.Usable⟩])).alloc.next = 1 ∧
    (init_heap (HEAP_START + 4096) 8192
      (init_heap HEAP_START 4096 ⟨tableIds (HEAP_START / 4096), []⟩
        (BootInfoFrameAllocator.init
          [⟨0, 8192, MemoryRegionKind.Usable⟩])).pt
      (init_heap HEAP_START 4096 ⟨tableIds (HEAP_START / 4096), []⟩
        (BootInfoFrameAllocator.init
          [⟨0, 8192, MemoryRegionKind.Usable⟩])).alloc).result =
      .error MapToError.FrameAllocationFailed ∧
    (init_heap (HEAP_START + 4096) 8192
      (init_heap HEAP_START 4096 ⟨tableIds (HEAP_START / 4096), []⟩
        (BootInfoFrameAllocator.init
          [⟨0, 8192, MemoryRegionKind.Usable⟩])).pt
      (init_heap HEAP_START 4096 ⟨tableIds (HEAP_START / 4096), []⟩
        (BootInfoFrameAllocator.init
          [⟨0, 8192, MemoryRegionKind.Usable⟩])).alloc).mappedPages =
      [HEAP_START / 4096 + 1] ∧
    (init_heap (HEAP_START + 4096) 8192
      (init_heap HEAP_START 4096 ⟨tableIds (HEAP_START / 4096), []⟩
        (BootInfoFrameAllocator.init
          [⟨0, 8192, MemoryRegionKind.Usable⟩])).pt
      (init_heap HEAP_START 4096 ⟨tableIds (HEAP_START / 4096), []⟩
        (BootInfoFrameAllocator.init
          [⟨0, 8192, MemoryRegionKind.Usable⟩])).alloc).alloc.next = 3 := by
  have hr1 : heap_page_range HEAP_START 4096 = [HEAP_START / 4096] := by
    decide
  have hr2 : heap_page_range (HEAP_START + 4096) 8192 =
      [HEAP_START / 4096 + 1, HEAP_START / 4096 + 2] := by
    decide
  have hs1 : init_heap HEAP_START 4096 ⟨tableIds (HEAP_START / 4096), []⟩
      (BootInfoFrameAllocator.init [⟨0, 8192, MemoryRegionKind.Usable⟩]) =
      ⟨.ok (), ⟨tableIds (HEAP_START / 4096), [(HEAP_START / 4096, 0)]⟩,
        ⟨[⟨0, 8192, MemoryRegionKind.Usable⟩], 1⟩, 1,
        [HEAP_START / 4096]⟩ := by
    unfold init_heap
    rw [hr1]
    rw [init_heap_loop_success [HEAP_START / 4096]
      ⟨tableIds (HEAP_START / 4096), []⟩
      (BootInfoFrameAllocator.init [⟨0, 8192, MemoryRegionKind.Usable⟩])
      (by decide) (by decide) (by decide)
      (by show 0 + 1 ≤ (usable_frames
            [⟨0, 8192, MemoryRegionKind.Usable⟩]).length
          rw [usable_frames_msTwo]
          norm_num)]
    simp [BootInfoFrameAllocator.init, usable_frames_msTwo]
  have hpt : (init_heap HEAP_START 4096 ⟨tableIds (HEAP_START / 4096), []⟩
      (BootInfoFrameAllocator.init
        [⟨0, 8192, MemoryRegionKind.Usable⟩])).pt =
      ⟨tableIds (HEAP_START / 4096), [(HEAP_START / 4096, 0)]⟩ := by
    rw [hs1]
  have halloc : (init_heap HEAP_START 4096
      ⟨tableIds (HEAP_START / 4096), []⟩
      (BootInfoFrameAllocator.init
        [⟨0, 8192, MemoryRegionKind.Usable⟩])).alloc =
      ⟨[⟨0, 8192, MemoryRegionKind.Usable⟩], 1⟩ := by
    rw [hs1]
  have hs2 : init_heap (HEAP_START + 4096) 8192
      ⟨tableIds (HEAP_START / 4096), [(HEAP_START / 4096, 0)]⟩
      ⟨[⟨0, 8192, MemoryRegionKind.Usable⟩], 1⟩ =
      ⟨.error MapToError.FrameAllocationFailed,
        ⟨tableIds (HEAP_START / 4096),
          [(HEAP_START / 4096 + 1, 4096), (HEAP_START / 4096, 0)]⟩,
        ⟨[⟨0, 8192, MemoryRegionKind.Usable⟩], 3⟩, 2,
        [HEAP_START / 4096 + 1]⟩ := by
    unfold init_heap
    rw [hr2]
    rw [init_heap_loop_failure
      [HEAP_START / 4096 + 1, HEAP_START / 4096 + 2]
      ⟨tableIds (HEAP_START / 4096), [(HEAP_START / 4096, 0)]⟩
      ⟨[⟨0, 8192, MemoryRegionKind.Usable⟩], 1⟩ 1
      (by decide) (by decide) (by decide)
      (by show (usable_frames
            [⟨0, 8192, MemoryRegionKind.Usable⟩]).length = 1 + 1
          rw [usable_frames_msTwo]
          rfl)
      (by norm_num)]
    simp [usable_frames_msTwo]
  refine ⟨by rw [usable_frames_msTwo]; rfl, by rw [hs1], by rw [hs1],
    ?_, ?_, ?_⟩
  · rw [hpt, halloc, hs2]
  · rw [hpt, halloc, hs2]
  · rw [hpt, halloc, hs2]


/-- C8: in the kernel_main bootstrap trace, whatever the firmware memory
map and initial page-table state, the IDT load occurs exactly once, at
position 1 right after logger setup; the page-table manager and frame
allocator are set up at positions 2 and 3; and every heap-page mapping
event occurs strictly later — the fault table is installed before any
heap mapping. -/
theorem claim_C8_idt_before_heap (memory_regions : List MemoryRegion)
    (pt0 : OffsetPageTable) :
    (kernel_main_trace memory_regions pt0).count BootEvent.idtLoad = 1 ∧
    (kernel_main_trace memory_regions pt0)[0]? = some BootEvent.loggerInit ∧
    (kernel_main_trace memory_regions pt0)[1]? = some BootEvent.idtLoad ∧
    (kernel_main_trace memory_regions pt0)[2]? = some BootEvent.memoryInit ∧
    (kernel_main_trace memory_regions pt0)[3]? =
      some BootEvent.frameAllocInit ∧
    ∀ j p, (kernel_main_trace memory_regions pt0)[j]? =
      some (BootEvent.heapMap p) → 3 < j := by
  unfold kernel_main_trace
  refine ⟨?_, ?_, ?_, ?_, ?_, ?_⟩
  · rw [List.count_append, List.count_append]
    have hm : ((init_heap HEAP_START HEAP_SIZE pt0
        (BootInfoFrameAllocator.init memory_regions)).mappedPages.map
          BootEvent.heapMap).count BootEvent.idtLoad = 0 := by
      rw [List.count_eq_zero]
      intro hmem
      obtain ⟨p, -, hp⟩ := List.mem_map.mp hmem
      exact BootEvent.noConfusion hp
    have htail : (match (init_heap HEAP_START HEAP_SIZE pt0
          (BootInfoFrameAllocator.init memory_regions)).result with
        | .ok _ => [BootEvent.heapAllocInit, BootEvent.heapTest,
            BootEvent.kernelReady]
        | .error _ => [BootEvent.kernelPanic]).count BootEvent.idtLoad
          = 0 := by
      cases (init_heap HEAP_START HEAP_SIZE pt0
          (BootInfoFrameAllocator.init memory_regions)).result with
      | ok u => rfl
      | error e => rfl
    rw [hm, htail]
    rfl
  · rfl
  · rfl
  · rfl
  · simp [List.cons_append]
  · intro j p hj
    by_contra hle
    have hj3 : j ≤ 3 := by omega
    interval_cases j <;> simp at hj

/-- C1 witness: at s = 0, L = 8192 the single-region count is
⌈8192/4096⌉ = 2, and deleting a Bootloader region leaves the frame
sequence unchanged. -/
theorem claim_C1_witness :
    (usable_frames [⟨0, 0 + 8192, MemoryRegionKind.Usable⟩]).length =
      (8192 + 4095) / 4096 ∧
    usable_frames ([] ++ ⟨0, 8192, MemoryRegionKind.Bootloader⟩ :: []) =
      usable_frames ([] ++ []) :=
  ⟨(claim_C1_single_region_count_and_reserved 0 8192).1,
   (claim_C1_single_region_count_and_reserved 0 0).2 [] []
     ⟨0, 8192, MemoryRegionKind.Bootloader⟩ (by decide)⟩

/-- C8 witness: on the empty memory map and empty initial page table the
bootstrap trace still loads the IDT exactly once, at position 1. -/
theorem claim_C8_witness :
    (kernel_main_trace [] ⟨[], []⟩).count BootEvent.idtLoad = 1 ∧
    (kernel_main_trace [] ⟨[], []⟩)[1]? = some BootEvent.idtLoad :=
  ⟨(claim_C8_idt_before_heap [] ⟨[], []⟩).1,
   (claim_C8_idt_before_heap [] ⟨[], []⟩).2.2.1⟩
